import Mathlib

/-!
# Verification of the data-normalization and join pipeline of `streamlit_app.py`

Shallow embedding of the data model and operations of the rainfall/ENSO
dashboard (`src/streamlit_app.py`).  Tabular values read from a delimited
text file are modelled by `RawCell` (a pandas object cell: either a numeric
value or a string token); nullable values are `Option`; fallible steps
return `Except`.  Real numbers are idealized as `Rat`.
-/

namespace Visor

/-- A raw cell as pandas reads it from a delimited file with a mixed
column: either a numeric value or a non-numeric string token (such as the
no-data sentinel `"n.d"` or `"A"`). -/
inductive RawCell where
  | num (v : Rat)
  | str (s : String)
deriving DecidableEq, Repr

/-- `pd.to_numeric(..., errors='coerce')` on a single cell: numeric values
pass through, any non-numeric token becomes NaN, modelled as `none`. -/
def toNumericCell : RawCell → Option Rat
  | RawCell.num v => some v
  | RawCell.str _ => none

/-- `df.replace('n.d', pd.NA).replace('A', pd.NA)` on a single cell
(line 517): the sentinel tokens become missing values. -/
def replaceSentinels : RawCell → Option RawCell
  | RawCell.num v => some (RawCell.num v)
  | RawCell.str s => if s = "n.d" then none else if s = "A" then none else some (RawCell.str s)

/-- The composed daily-data cleaning of one cell (lines 517 and 520):
sentinel replacement followed by numeric coercion; a missing value stays
missing through `pd.to_numeric`. -/
def cleanDailyCell (c : RawCell) : Option Rat :=
  (replaceSentinels c).bind toNumericCell

/-- `Series.sum()` with pandas' default `skipna=True` (line 541): missing
values are skipped, only present values are accumulated. -/
def monthSum (cells : List (Option Rat)) : Rat :=
  cells.foldl (fun acc c => match c with | some v => acc + v | none => acc) 0

/-! ## Station registry (`mapaCV.csv`), lines 34-36 and 89-107 -/

/-- The column renaming of line 36:
`df.rename(columns={'Mpio': 'municipio', 'NOMBRE_VER': 'vereda'})`.
`DataFrame.rename` maps each column name through the dictionary and leaves
names outside the dictionary unchanged. -/
def renameColumn (c : String) : String :=
  if c = "Mpio" then "municipio" else if c = "NOMBRE_VER" then "vereda" else c

/-- Renaming applied to a whole header row. -/
def normalizeColumns (cols : List String) : List String :=
  cols.map renameColumn

/-- The required canonical columns of the station registry (line 91). -/
def required_cols : List String :=
  ["Nom_Est", "Latitud", "Longitud", "municipio", "Celda_XY", "vereda",
   "Id_estacion", "departamento"]

/-- `[col for col in required_cols if col not in df.columns]` (line 92). -/
def missing_cols (cols : List String) : List String :=
  required_cols.filter (fun c => ¬ cols.contains c)

/-- One row of the station registry as read, with the coordinate cells
still raw. The other attribute columns do not take part in the cleaning. -/
structure RawStationRow where
  nom : String
  lat : RawCell
  lon : RawCell
deriving DecidableEq, Repr

/-- A station row after the numeric coercion of lines 98-99. -/
structure StationRow where
  nom : String
  lat : Option Rat
  lon : Option Rat
deriving DecidableEq, Repr

/-- Lines 98-99: `df['Latitud'] = pd.to_numeric(df['Latitud'], errors='coerce')`
and the same for `Longitud`. -/
def toNumericStations (rows : List RawStationRow) : List StationRow :=
  rows.map (fun r => ⟨r.nom, toNumericCell r.lat, toNumericCell r.lon⟩)

/-- Line 102: `df.dropna(subset=['Latitud', 'Longitud'], inplace=True)`. -/
def dropnaLatLon (rows : List StationRow) : List StationRow :=
  rows.filter (fun r => r.lat.isSome && r.lon.isSome)

/-- The coordinate cleaning of lines 97-102. -/
def cleanStations (rows : List RawStationRow) : List StationRow :=
  dropnaLatLon (toNumericStations rows)

/-- Outcome of the registry-processing gate of lines 89-107: either the
missing-columns error of line 95, the empty-table error of line 106, or
the analysis tabs built from the cleaned table (lines 108 onward). -/
inductive SessionResult where
  | missingColumns (missing : List String)
  | emptyAfterClean
  | tabs (stations : List StationRow)
deriving DecidableEq, Repr

/-- Lines 89-107: validate the required columns; on success clean the
coordinates and either report the empty-table error or open the tabs. -/
def processRegistry (cols : List String) (rows : List RawStationRow) : SessionResult :=
  if missing_cols cols ≠ [] then
    SessionResult.missingColumns (missing_cols cols)
  else
    match cleanStations rows with
    | [] => SessionResult.emptyAfterClean
    | rs => SessionResult.tabs rs

/-! ## Geometry loading and alignment (lines 63-87) -/

/-- Python `str.endswith(suffix)` on a file name, modelled on the
character list underlying the string. -/
def endsWithShp (f : String) : Bool :=
  ".shp".data.isSuffixOf f.data

/-- Line 72: `shp_files = [f for f in os.listdir(temp_dir) if f.endswith('.shp')]`. -/
def shp_files (entries : List String) : List String :=
  entries.filter endsWithShp

/-- Outcome of the shapefile branch (lines 72-85): either the explicit
no-`.shp` geometry error of line 84 with `gdf = None` (line 85), or a
spatial table read from the named member (`gpd.read_file(shp_path)`,
lines 74-75). -/
inductive ShapefileResult where
  | errorNoShp
  | loaded (shp : String)
deriving DecidableEq, Repr

/-- Lines 72-85: if any `.shp` member exists, read `shp_files[0]`;
otherwise report the geometry error and leave no spatial table. -/
def loadShapefileZip (entries : List String) : ShapefileResult :=
  match shp_files entries with
  | [] => ShapefileResult.errorNoShp
  | f :: _ => ShapefileResult.loaded f

/-- A loaded spatial table reduced to the attribute the aligner acts on:
its coordinate reference system tag (`none` when the data declares no
CRS). -/
structure GeoTable where
  crs : Option String
deriving DecidableEq, Repr

/-- The failures geopandas raises during alignment. -/
inductive GeoError where
  | crsAlreadySet
  | naiveGeometry
deriving DecidableEq, Repr

/-- `GeoDataFrame.set_crs(crs, inplace=True)` (line 79) with the default
`allow_override=False`: assigns the CRS when none is declared, leaves an
equal declared CRS in place, and raises a `ValueError` when a different
CRS is already declared. -/
def set_crs (target : String) (g : GeoTable) : Except GeoError GeoTable :=
  match g.crs with
  | none => Except.ok ⟨some target⟩
  | some c => if c = target then Except.ok g else Except.error GeoError.crsAlreadySet

/-- `GeoDataFrame.to_crs(target)` (line 80): reprojects a table that has
a CRS; raises on a table without one. -/
def to_crs (target : String) (g : GeoTable) : Except GeoError GeoTable :=
  match g.crs with
  | none => Except.error GeoError.naiveGeometry
  | some _ => Except.ok ⟨some target⟩

/-- Lines 79-80: `gdf.set_crs("EPSG:9377", inplace=True)` followed by
`gdf = gdf.to_crs("EPSG:4326")`; an exception in either call aborts the
geometry branch (caught at line 86). -/
def alignGeometry (g : GeoTable) : Except GeoError GeoTable :=
  (set_crs "EPSG:9377" g).bind (to_crs "EPSG:4326")

/-! ## ENSO analysis (lines 560-606) -/

/-- One row of `ENSO_1950-2023.csv` after the cleaning of line 567
(`pd.to_numeric` on `ONI_IndOceanico` with `errors='coerce'`): year,
calendar month, and the possibly-missing oceanic anomaly index. -/
structure EnsoRow where
  year : Int
  month : Int
  oni : Option Rat
deriving DecidableEq, Repr

/-- The mean ONI of one year group (`Series.mean`, skipping missing
values; the mean of an all-missing group is missing). -/
def annualOni (rows : List EnsoRow) (y : Int) : Option Rat :=
  let vals := (rows.filter (fun r => r.year == y)).filterMap EnsoRow.oni
  if vals.isEmpty then none else some (vals.sum / (vals.length : Rat))

/-- Line 585: `df_enso_clean.groupby('Año')['ONI_IndOceanico'].mean().reset_index()`
— one row per distinct year (`groupby` sorts the group keys ascending),
holding that year's mean ONI. -/
def ensoAnnual (rows : List EnsoRow) : List (Int × Option Rat) :=
  (List.insertionSort (· ≤ ·) ((rows.map EnsoRow.year).dedup)).map
    (fun y => (y, annualOni rows y))

/-- One row of `df_annual_precip` (lines 570-576): a melted annual
precipitation record with the year column coerced to numeric. -/
structure AnnualPrecipRow where
  station : String
  year : Option Int
  precip : Option RawCell
deriving DecidableEq, Repr

/-- Line 588: `pd.merge(df_annual_precip, df_enso_annual, on='Año', how='inner')`
— each precipitation record is paired with every annual ENSO entry whose
year equals its own (a missing year key matches nothing). -/
def mergedDf (precip : List AnnualPrecipRow) (enso : List (Int × Option Rat)) :
    List (AnnualPrecipRow × Option Rat) :=
  precip.flatMap (fun p =>
    (enso.filter (fun e => p.year == some e.1)).map (fun e => (p, e.2)))

/-- Outcome of the correlation subsection (lines 591-606): the scatter
chart with OLS trendline over the merged rows, or the informational
no-overlap message when the merge is empty. -/
inductive EnsoView where
  | insufficientOverlap
  | chart (rows : List (AnnualPrecipRow × Option Rat))
deriving DecidableEq, Repr

/-- Lines 591-606: `if not merged_df.empty:` render the chart `else` show
the message. -/
def ensoCorrelationView (merged : List (AnnualPrecipRow × Option Rat)) : EnsoView :=
  if merged.isEmpty then EnsoView.insufficientOverlap else EnsoView.chart merged

/-! ## Wide-to-long reshape (lines 274-280 and 444-450) -/

/-- One row of the melted table: station identifier (`Nom_Est`), the
melted column name (`Año`), and the value taken from that column
(missing when the row has no such column). -/
structure LongRow where
  station : String
  col : String
  value : Option RawCell
deriving DecidableEq, Repr

/-- `selected_stations_df.melt(id_vars=['Nom_Est'], value_vars=years_to_analyze_present,
var_name='Año', value_name='Precipitación')` (lines 274-280, 444-450):
the long table stacks, column by column, one record per (column, row)
pair carrying that row's cell in that column. A wide row is its key
paired with its cells, listed in the order of the value columns. -/
def melt (cols : List String) (rows : List (String × List RawCell)) : List LongRow :=
  cols.enum.flatMap (fun ic =>
    rows.map (fun r => (⟨r.1, ic.2, r.2[ic.1]?⟩ : LongRow)))

/-- Modelled from the spec: the null-filtering step of the Reshaper —
"filtering out \"no data\" sentinels" — drops the long rows whose value
is the sentinel token. The iteration under study melts without this
explicit row filter. -/
def dropNoData (l : List LongRow) : List LongRow :=
  l.filter (fun r => !(r.value == some (RawCell.str "n.d")))

/-- Modelled from the spec: "pivoting the long output back on
(row-key, station-id)" — the pivoted cell for a key/column pair is the
value of the unique long row carrying that pair, and null when no long
row carries it. -/
def pivotCell (l : List LongRow) (k c : String) : Option RawCell :=
  ((l.filter (fun r => r.station == k && r.col == c)).head?).bind LongRow.value

/-- Concrete ENSO table with two months of one year, indices 1 and 3. -/
def ensoTwoMonths : List EnsoRow := [⟨2020, 1, some 1⟩, ⟨2020, 2, some 3⟩]

/-- Concrete one-record annual precipitation table for the same year. -/
def precipOne : List AnnualPrecipRow := [⟨"Est1", some 2020, some (RawCell.num 100)⟩]

/-- Concrete one-record precipitation table whose value is missing. -/
def precipNullValue : List AnnualPrecipRow := [⟨"Est2", some 2000, none⟩]

/-- Concrete one-month ENSO table for the year 2000. -/
def ensoOneMonth : List EnsoRow := [⟨2000, 1, some 1⟩]

end Visor

namespace Visor

/-! ## Theorems: schema normalization and registry gate -/

/-- C9: Column-name normalization is idempotent: applying the canonical
renaming map twice to any list of incoming column names yields exactly the
same result as applying it once. -/
theorem normalizeColumns_idempotent (cols : List String) :
    normalizeColumns (normalizeColumns cols) = normalizeColumns cols := by
  unfold normalizeColumns
  rw [List.map_map]
  apply List.map_congr_left
  intro c _
  simp only [Function.comp_apply, renameColumn]
  by_cases h1 : c = "Mpio"
  · simp [h1]
  · by_cases h2 : c = "NOMBRE_VER"
    · simp [h1, h2]
    · simp [h1, h2]

/-- A missing-value-skipping sum is the sum of the present values. -/
theorem monthSum_eq_sum_filterMap (cells : List (Option Rat)) :
    monthSum cells = (cells.filterMap id).sum := by
  unfold monthSum
  suffices h : ∀ init : Rat,
      cells.foldl (fun acc c => match c with | some v => acc + v | none => acc) init
        = init + (cells.filterMap id).sum by
    simpa using h 0
  induction cells with
  | nil => intro init; simp
  | cons c cs ih =>
    intro init
    cases c with
    | none => simp [List.foldl_cons, ih]
    | some v => simp [List.foldl_cons, ih]; ring

/-- C1: the daily-data cleaning converts a `"n.d"` (or `"A"`) sentinel
cell to an explicit missing value — not to zero — and the per-month group
sum skips it: the monthly sum over a group containing the sentinel cell
equals the sum over the group without it, so the sentinel never
contributes a numeric amount. -/
theorem cleanDailyCell_sentinel_skipped (pre post : List RawCell) (c : RawCell)
    (h : c = RawCell.str "n.d" ∨ c = RawCell.str "A") :
    cleanDailyCell c = none ∧ cleanDailyCell c ≠ some 0 ∧
    monthSum ((pre ++ c :: post).map cleanDailyCell) =
      monthSum ((pre ++ post).map cleanDailyCell) := by
  have hc : cleanDailyCell c = none := by
    rcases h with h | h <;> subst h <;> rfl
  refine ⟨hc, by simp [hc], ?_⟩
  rw [monthSum_eq_sum_filterMap, monthSum_eq_sum_filterMap]
  simp [List.filterMap_append, hc]

/-- Witness for C1 at a concrete group: one sentinel between two numeric
daily values. -/
theorem cleanDailyCell_sentinel_skipped_witness :
    cleanDailyCell (RawCell.str "n.d") = none ∧
    cleanDailyCell (RawCell.str "n.d") ≠ some 0 ∧
    monthSum (([RawCell.num 1] ++ RawCell.str "n.d" :: [RawCell.num 2]).map cleanDailyCell) =
      monthSum (([RawCell.num 1] ++ [RawCell.num 2]).map cleanDailyCell) :=
  cleanDailyCell_sentinel_skipped [RawCell.num 1] [RawCell.num 2] _ (Or.inl rfl)

/-- C5: when a required canonical column is missing, the registry gate
produces the missing-columns error, the error names exactly the required
columns that are absent, and no analysis tabs are produced. -/
theorem processRegistry_missing_fatal (cols : List String) (rows : List RawStationRow)
    (h : missing_cols cols ≠ []) :
    processRegistry cols rows = SessionResult.missingColumns (missing_cols cols) ∧
    (∀ c, c ∈ missing_cols cols ↔ c ∈ required_cols ∧ ¬ cols.contains c) ∧
    ∀ s, processRegistry cols rows ≠ SessionResult.tabs s := by
  refine ⟨?_, ?_, ?_⟩
  · simp [processRegistry, h]
  · intro c
    simp [missing_cols, List.mem_filter]
  · intro s
    simp [processRegistry, h]

/-- Witness for C5: a header lacking `departamento` triggers the error
naming exactly that column, and no tabs appear. -/
theorem processRegistry_missing_fatal_witness :
    processRegistry
        ["Nom_Est", "Latitud", "Longitud", "municipio", "Celda_XY", "vereda", "Id_estacion"]
        [] =
      SessionResult.missingColumns
        (missing_cols
          ["Nom_Est", "Latitud", "Longitud", "municipio", "Celda_XY", "vereda", "Id_estacion"]) :=
  (processRegistry_missing_fatal
    ["Nom_Est", "Latitud", "Longitud", "municipio", "Celda_XY", "vereda", "Id_estacion"]
    [] (by decide)).1

/-- C10: after cleaning, every retained station row has present (numeric)
latitude and longitude; the analysis tabs, when produced, are built from
exactly the cleaned, nonempty table; and when cleaning empties the table
(with the header valid) the session ends in the empty-table error instead
of tabs. -/
theorem cleanStations_coords_present (cols : List String) (rows : List RawStationRow) :
    (∀ r ∈ cleanStations rows, r.lat.isSome ∧ r.lon.isSome) ∧
    (∀ s, processRegistry cols rows = SessionResult.tabs s →
      s = cleanStations rows ∧ s ≠ []) ∧
    (missing_cols cols = [] → cleanStations rows = [] →
      processRegistry cols rows = SessionResult.emptyAfterClean) := by
  refine ⟨?_, ?_, ?_⟩
  · intro r hr
    have := List.of_mem_filter hr
    simp only [Bool.and_eq_true] at this
    exact ⟨this.1, this.2⟩
  · intro s hs
    unfold processRegistry at hs
    by_cases h : missing_cols cols ≠ []
    · simp [h] at hs
    · simp [h] at hs
      cases hcs : cleanStations rows with
      | nil => rw [hcs] at hs; simp at hs
      | cons a as =>
        rw [hcs] at hs
        simp only [SessionResult.tabs.injEq] at hs
        exact ⟨hs.symm, by rw [← hs]; simp⟩
  · intro h hcs
    unfold processRegistry
    simp [h, hcs]

/-- C3 counterexample: a successfully loaded geometry table that declares
its own CRS (here `EPSG:4326`) is not reprojected to `EPSG:4326` — the
unconditional `set_crs("EPSG:9377")` raises because a different CRS is
already declared, so the alignment step errors out instead of producing a
reprojected table. -/
theorem alignGeometry_declared_crs_counterexample :
    alignGeometry ⟨some "EPSG:4326"⟩ = Except.error GeoError.crsAlreadySet := by rfl

/-- C3 amended: the aligner assigns `EPSG:9377` only to a table declaring
no CRS and never overwrites a declared CRS, but it reprojects to
`EPSG:4326` only the tables declaring no CRS or exactly `EPSG:9377`; a
table declaring any other CRS makes the geometry step fail instead of
being reprojected. -/
theorem alignGeometry_cases (g : GeoTable) :
    alignGeometry g =
      if g.crs = none ∨ g.crs = some "EPSG:9377" then Except.ok ⟨some "EPSG:4326"⟩
      else Except.error GeoError.crsAlreadySet := by
  rcases g with ⟨_ | c⟩
  · simp [alignGeometry, set_crs, to_crs, Except.bind]
  · by_cases hc : c = "EPSG:9377"
    · subst hc
      simp [alignGeometry, set_crs, to_crs, Except.bind]
    · simp [alignGeometry, set_crs, to_crs, Except.bind, hc]

/-- C4 counterexample: an archive holding two `.shp` candidates is loaded
silently from the first one in listing order — the loader does guess among
multiple candidates. -/
theorem loadShapefileZip_two_candidates_counterexample :
    shp_files ["a.shp", "b.shp"] = ["a.shp", "b.shp"] ∧
    loadShapefileZip ["a.shp", "b.shp"] = ShapefileResult.loaded "a.shp" := by decide

/-- C4 amended: when the archive holds no `.shp` member the loader fails
with the explicit geometry error and produces no spatial table; when it
holds one or more, it silently loads the first candidate in listing
order. -/
theorem loadShapefileZip_cases (entries : List String) :
    (shp_files entries = [] → loadShapefileZip entries = ShapefileResult.errorNoShp) ∧
    (∀ f rest, shp_files entries = f :: rest →
      loadShapefileZip entries = ShapefileResult.loaded f) := by
  constructor
  · intro h
    simp [loadShapefileZip, h]
  · intro f rest h
    simp [loadShapefileZip, h]

/-- Witness for C4 (amended): an archive with only auxiliary members
yields the geometry error. -/
theorem loadShapefileZip_cases_witness :
    loadShapefileZip ["x.dbf", "x.shx"] = ShapefileResult.errorNoShp :=
  (loadShapefileZip_cases ["x.dbf", "x.shx"]).1 (by decide)

/-- Membership in the annual ENSO aggregate: one entry per year occurring
in the source, carrying that year's mean ONI. -/
theorem mem_ensoAnnual (ensoRows : List EnsoRow) (y : Int) (v : Option Rat) :
    (y, v) ∈ ensoAnnual ensoRows ↔
      (∃ r ∈ ensoRows, r.year = y) ∧ v = annualOni ensoRows y := by
  unfold ensoAnnual
  rw [List.mem_map]
  constructor
  · rintro ⟨y', hy', heq⟩
    obtain ⟨rfl, rfl⟩ := Prod.mk.injEq .. ▸ heq
    have hy : y' ∈ (ensoRows.map EnsoRow.year) := by
      have h1 := (List.mem_insertionSort _).mp hy'
      exact List.mem_dedup.mp h1
    obtain ⟨r, hr, hry⟩ := List.mem_map.mp hy
    exact ⟨⟨r, hr, hry⟩, rfl⟩
  · rintro ⟨⟨r, hr, hry⟩, rfl⟩
    refine ⟨y, ?_, rfl⟩
    rw [List.mem_insertionSort, List.mem_dedup]
    exact hry ▸ List.mem_map_of_mem EnsoRow.year hr

/-- Membership in the merged table: the inner join on the year key. -/
theorem mem_mergedDf (precip : List AnnualPrecipRow) (enso : List (Int × Option Rat))
    (p : AnnualPrecipRow) (v : Option Rat) :
    (p, v) ∈ mergedDf precip enso ↔
      p ∈ precip ∧ ∃ y, p.year = some y ∧ (y, v) ∈ enso := by
  unfold mergedDf
  rw [List.mem_flatMap]
  constructor
  · rintro ⟨q, hq, hmem⟩
    obtain ⟨e, he, heq⟩ := List.mem_map.mp hmem
    obtain ⟨rfl, rfl⟩ := Prod.mk.injEq .. ▸ heq
    obtain ⟨he1, he2⟩ := List.mem_filter.mp he
    refine ⟨hq, e.1, ?_, ?_⟩
    · exact eq_of_beq he2
    · exact he1
  · rintro ⟨hp, y, hy, hyv⟩
    refine ⟨p, hp, ?_⟩
    apply List.mem_map.mpr
    refine ⟨(y, v), List.mem_filter.mpr ⟨hyv, ?_⟩, rfl⟩
    simp [hy]

/-- C2 counterexample: with two ENSO months for 2020 carrying indices 1
and 3, the code attaches the value 2 — the annual mean — to the 2020
precipitation record, although no ENSO record carries index 2 and the
record's month is never consulted: the join key is the year alone, not
(year, month). -/
theorem mergedDf_year_only_counterexample :
    mergedDf precipOne (ensoAnnual ensoTwoMonths) =
      [(⟨"Est1", some 2020, some (RawCell.num 100)⟩, some 2)] ∧
    ensoTwoMonths.filter (fun r => r.oni == some 2) = [] := by
  have hv : ((ensoTwoMonths.filter (fun r => r.year == 2020)).filterMap EnsoRow.oni)
      = [1, 3] := by decide
  have ha : annualOni ensoTwoMonths 2020 = some 2 := by
    unfold annualOni
    rw [hv]
    norm_num
  have hy : List.insertionSort (· ≤ ·) ((ensoTwoMonths.map EnsoRow.year).dedup)
      = [2020] := by decide
  have h1 : ensoAnnual ensoTwoMonths = [(2020, some 2)] := by
    unfold ensoAnnual
    rw [hy, List.map_cons, List.map_nil, ha]
  refine ⟨?_, by decide⟩
  rw [h1]
  decide

/-- C2 amended: the climate join is an inner join on the year key alone
against the per-year mean ONI: a (record, value) pair is in the output
exactly when the record is in the precipitation table, its year parsed
and is covered by some ENSO row, and the value is that year's mean
anomaly index; records whose year has no ENSO coverage are excluded. -/
theorem mergedDf_inner_join_on_year (precip : List AnnualPrecipRow)
    (ensoRows : List EnsoRow) (p : AnnualPrecipRow) (v : Option Rat) :
    (p, v) ∈ mergedDf precip (ensoAnnual ensoRows) ↔
      p ∈ precip ∧ ∃ y, p.year = some y ∧ (∃ r ∈ ensoRows, r.year = y) ∧
        v = annualOni ensoRows y := by
  rw [mem_mergedDf]
  constructor
  · rintro ⟨hp, y, hy, hyv⟩
    obtain ⟨hcov, hval⟩ := (mem_ensoAnnual ensoRows y v).mp hyv
    exact ⟨hp, y, hy, hcov, hval⟩
  · rintro ⟨hp, y, hy, hcov, hval⟩
    exact ⟨hp, y, hy, (mem_ensoAnnual ensoRows y v).mpr ⟨hcov, hval⟩⟩

/-- C6 counterexample: a merged table holding exactly one paired
observation is rendered as the correlation chart — fewer than 2 pairs do
not produce an insufficient-data sentinel. -/
theorem ensoCorrelationView_single_pair_counterexample :
    (mergedDf precipOne [(2020, some 1)]).length = 1 ∧
    ensoCorrelationView (mergedDf precipOne [(2020, some 1)]) =
      EnsoView.chart (mergedDf precipOne [(2020, some 1)]) := by decide

/-- C6 amended: the ENSO correlation subsection computes no coefficient
and removes no pairs: it shows the informational no-overlap message
exactly when the joined table is empty, and otherwise charts the joined
rows unchanged — including a single pair and pairs with missing values. -/
theorem ensoCorrelationView_empty_iff (precip : List AnnualPrecipRow)
    (ensoRows : List EnsoRow) :
    (ensoCorrelationView (mergedDf precip (ensoAnnual ensoRows)) =
        EnsoView.insufficientOverlap ↔
      mergedDf precip (ensoAnnual ensoRows) = []) ∧
    (mergedDf precip (ensoAnnual ensoRows) ≠ [] →
      ensoCorrelationView (mergedDf precip (ensoAnnual ensoRows)) =
        EnsoView.chart (mergedDf precip (ensoAnnual ensoRows))) := by
  constructor
  · unfold ensoCorrelationView
    by_cases h : mergedDf precip (ensoAnnual ensoRows) = [] <;>
      simp [h, List.isEmpty_iff]
  · intro h
    unfold ensoCorrelationView
    simp [h, List.isEmpty_iff]

/-- Witness for C6 (amended): a single merged pair whose precipitation
value is missing is still charted. -/
theorem ensoCorrelationView_empty_iff_witness :
    ensoCorrelationView (mergedDf precipNullValue (ensoAnnual ensoOneMonth)) =
      EnsoView.chart (mergedDf precipNullValue (ensoAnnual ensoOneMonth)) :=
  (ensoCorrelationView_empty_iff precipNullValue ensoOneMonth).2 (by decide)

/-- A flatMap over blocks of constant length has length blocks × rows. -/
theorem flatMap_const_length {β γ : Type} (rows : List β) (g : Nat × String → β → γ) :
    ∀ L : List (Nat × String),
      (L.flatMap (fun ic => rows.map (g ic))).length = L.length * rows.length := by
  intro L
  induction L with
  | nil => simp
  | cons a as ih =>
    simp only [List.flatMap_cons, List.length_append, List.length_map, ih,
      List.length_cons]
    ring

/-- The melted table has one row per (column, row) pair. -/
theorem melt_length (cols : List String) (rows : List (String × List RawCell)) :
    (melt cols rows).length = cols.length * rows.length := by
  unfold melt
  rw [flatMap_const_length rows (fun ic r => (⟨r.1, ic.2, r.2[ic.1]?⟩ : LongRow)) cols.enum,
    List.enum_length]

/-- C7: for K value columns and R selected rows, the melt yields exactly
K × R long rows, and filtering out the rows carrying the no-data
sentinel yields strictly fewer whenever at least one sentinel cell is
present among the melted cells. -/
theorem melt_counts (cols : List String) (rows : List (String × List RawCell))
    (h : ∃ r ∈ rows, ∃ i c, (i, c) ∈ cols.enum ∧ r.2[i]? = some (RawCell.str "n.d")) :
    (melt cols rows).length = cols.length * rows.length ∧
    (dropNoData (melt cols rows)).length < (melt cols rows).length := by
  refine ⟨melt_length cols rows, ?_⟩
  apply List.length_filter_lt_length_iff_exists.mpr
  obtain ⟨r, hr, i, c, hic, hv⟩ := h
  refine ⟨⟨r.1, c, r.2[i]?⟩, ?_, ?_⟩
  · unfold melt
    rw [List.mem_flatMap]
    exact ⟨(i, c), hic, List.mem_map_of_mem _ hr⟩
  · simp [hv]

/-- Witness for C7: two year columns, one station row, one sentinel
cell. -/
theorem melt_counts_witness :
    (melt ["1970", "1971"] [("A", [RawCell.num 5, RawCell.str "n.d"])]).length =
      (["1970", "1971"] : List String).length *
        ([("A", [RawCell.num 5, RawCell.str "n.d"])] :
          List (String × List RawCell)).length ∧
    (dropNoData (melt ["1970", "1971"] [("A", [RawCell.num 5, RawCell.str "n.d"])])).length <
      (melt ["1970", "1971"] [("A", [RawCell.num 5, RawCell.str "n.d"])]).length :=
  melt_counts ["1970", "1971"] [("A", [RawCell.num 5, RawCell.str "n.d"])]
    ⟨("A", [RawCell.num 5, RawCell.str "n.d"]), by decide, 1, "1971", by decide, by decide⟩

/-- The second component of an enumerated entry is a member of the list. -/
theorem snd_mem_of_mem_enumFrom {α : Type} (x : Nat × α) :
    ∀ (m : Nat) (l : List α), x ∈ List.enumFrom m l → x.2 ∈ l := by
  intro m l
  induction l generalizing m with
  | nil => intro h; cases h
  | cons a as ih =>
    intro h
    rcases List.mem_cons.mp h with h | h
    · rw [h]
      exact List.mem_cons_self a as
    · exact List.mem_cons_of_mem a (ih (m + 1) h)

/-- Filtering a list with pairwise-distinct keys for the key of a member
keeps exactly that member, up to a side condition. -/
theorem filter_fst_eq_with (r : String × List RawCell)
    (g : (String × List RawCell) → Bool) :
    ∀ rows : List (String × List RawCell), (rows.map Prod.fst).Nodup → r ∈ rows →
      rows.filter (fun x => x.1 == r.1 && g x) = if g r then [r] else [] := by
  intro rows
  induction rows with
  | nil => intro _ h; cases h
  | cons a as ih =>
    intro hnd hr
    rw [List.map_cons, List.nodup_cons] at hnd
    rcases List.mem_cons.mp hr with heq | h
    · subst heq
      have htail : as.filter (fun x => x.1 == r.1 && g x) = [] := by
        apply List.filter_eq_nil_iff.mpr
        intro x hx
        have hne : x.1 ≠ r.1 := by
          intro he
          exact hnd.1 (he ▸ List.mem_map_of_mem Prod.fst hx)
        simp [hne]
      rw [List.filter_cons]
      by_cases hg : g r
      · simp [hg, htail]
      · simp [hg, htail]
    · have hne : a.1 ≠ r.1 := by
        intro he
        exact hnd.1 (he ▸ List.mem_map_of_mem Prod.fst h)
      rw [List.filter_cons_of_neg (by simp [hne])]
      exact ih hnd.2 h

/-- Melt blocks over columns other than `c` contribute nothing when
filtering for column `c`. -/
theorem filter_melt_blocks_nil (rows : List (String × List RawCell))
    (k c : String) (p : LongRow → Bool) (cs : List String) (m : Nat)
    (hcs : c ∉ cs) :
    ((List.enumFrom m cs).flatMap (fun ic =>
        rows.map (fun x => (⟨x.1, ic.2, x.2[ic.1]?⟩ : LongRow)))).filter
      (fun lr => (lr.station == k && lr.col == c) && p lr) = [] := by
  apply List.filter_eq_nil_iff.mpr
  intro lr hlr
  rw [List.mem_flatMap] at hlr
  obtain ⟨ic, hic, hmem⟩ := hlr
  obtain ⟨x, _, rfl⟩ := List.mem_map.mp hmem
  have hmem2 : ic.2 ∈ cs := snd_mem_of_mem_enumFrom ic m cs hic
  have hne : ic.2 ≠ c := fun he => hcs (he ▸ hmem2)
  simp [hne]
/-- Filtering the melt for one key/column pair isolates the unique
corresponding long row, subject to a further predicate. -/
theorem filter_melt_enumFrom (rows : List (String × List RawCell))
    (hkeys : (rows.map Prod.fst).Nodup) (r : String × List RawCell) (hr : r ∈ rows)
    (i : Nat) (c : String) (p : LongRow → Bool) :
    ∀ (cs : List String) (m : Nat), cs.Nodup → (i, c) ∈ List.enumFrom m cs →
      ((List.enumFrom m cs).flatMap (fun ic =>
          rows.map (fun x => (⟨x.1, ic.2, x.2[ic.1]?⟩ : LongRow)))).filter
        (fun lr => (lr.station == r.1 && lr.col == c) && p lr)
      = if p ⟨r.1, c, r.2[i]?⟩ then [⟨r.1, c, r.2[i]?⟩] else [] := by
  intro cs
  induction cs with
  | nil => intro m _ h; cases h
  | cons c' cs' ih =>
    intro m hnd hic
    rw [List.nodup_cons] at hnd
    rw [show List.enumFrom m (c' :: cs') = (m, c') :: List.enumFrom (m + 1) cs' from rfl]
      at hic ⊢
    rw [List.flatMap_cons, List.filter_append]
    rcases List.mem_cons.mp hic with heq | htail
    · obtain ⟨hi, hc⟩ := Prod.mk.injEq .. ▸ heq
      subst hi
      subst hc
      have htl : ((List.enumFrom (i + 1) cs').flatMap (fun ic =>
          rows.map (fun x => (⟨x.1, ic.2, x.2[ic.1]?⟩ : LongRow)))).filter
            (fun lr => (lr.station == r.1 && lr.col == c) && p lr) = [] :=
        filter_melt_blocks_nil rows r.1 c p cs' (i + 1) hnd.1
      rw [htl, List.append_nil]
      have hcomp : ((fun lr => (lr.station == r.1 && lr.col == c) && p lr) ∘
          (fun x : String × List RawCell => (⟨x.1, c, x.2[i]?⟩ : LongRow)))
          = fun x => x.1 == r.1 && p ⟨x.1, c, x.2[i]?⟩ := by
        funext x
        simp
      rw [List.filter_map, hcomp,
        filter_fst_eq_with r (fun x => p ⟨x.1, c, x.2[i]?⟩) rows hkeys hr]
      by_cases hg : p ⟨r.1, c, r.2[i]?⟩
      · simp [hg]
      · simp [hg]
    · have hcmem : c ∈ cs' := snd_mem_of_mem_enumFrom (i, c) (m + 1) cs' htail
      have hne : c' ≠ c := fun he => hnd.1 (he ▸ hcmem)
      have hhead : (rows.map (fun x => (⟨x.1, c', x.2[m]?⟩ : LongRow))).filter
          (fun lr => (lr.station == r.1 && lr.col == c) && p lr) = [] := by
        apply List.filter_eq_nil_iff.mpr
        intro lr hlr
        obtain ⟨x, _, rfl⟩ := List.mem_map.mp hlr
        simp [hne]
      rw [hhead, List.nil_append]
      exact ih (m + 1) hnd.2 htail

/-- C8: reshape and pivot are a round-trip — for every wide table with
distinct row keys and distinct value columns, pivoting the null-filtered
long output back on the (row-key, column) pair reproduces the original
wide cell, with a null exactly where the cell was the dropped no-data
sentinel. -/
theorem pivotCell_melt_roundtrip (cols : List String)
    (rows : List (String × List RawCell))
    (hcols : cols.Nodup) (hkeys : (rows.map Prod.fst).Nodup)
    (r : String × List RawCell) (hr : r ∈ rows) (i : Nat) (c : String)
    (hic : (i, c) ∈ cols.enum) :
    pivotCell (dropNoData (melt cols rows)) r.1 c =
      if r.2[i]? = some (RawCell.str "n.d") then none else r.2[i]? := by
  unfold pivotCell dropNoData melt
  rw [List.filter_filter]
  rw [show cols.enum = List.enumFrom 0 cols from rfl]
  rw [filter_melt_enumFrom rows hkeys r hr i c
    (fun lr => !(lr.value == some (RawCell.str "n.d"))) cols 0 hcols hic]
  by_cases hs : r.2[i]? = some (RawCell.str "n.d")
  · simp [hs]
  · simp [hs]

/-- Witness for C8: the sentinel cell of station A in column 1971 pivots
back to null while the numeric cells pivot back to their values. -/
theorem pivotCell_melt_roundtrip_witness :
    pivotCell
        (dropNoData (melt ["1970", "1971"]
          [("A", [RawCell.num 5, RawCell.str "n.d"]), ("B", [RawCell.num 7, RawCell.num 8])]))
        "A" "1971" =
      if ([RawCell.num 5, RawCell.str "n.d"] : List RawCell)[1]? =
          some (RawCell.str "n.d") then none
      else ([RawCell.num 5, RawCell.str "n.d"] : List RawCell)[1]? :=
  pivotCell_melt_roundtrip ["1970", "1971"]
    [("A", [RawCell.num 5, RawCell.str "n.d"]), ("B", [RawCell.num 7, RawCell.num 8])]
    (by decide) (by decide) ("A", [RawCell.num 5, RawCell.str "n.d"]) (by decide)
    1 "1971" (by decide)

/-- Witness for C10: a registry with one parseable row and one row whose
latitude is the unparseable token keeps exactly the parseable row, whose
coordinates are present. -/
theorem cleanStations_coords_present_witness :
    [(⟨"A", some 1, some 2⟩ : StationRow)] =
      cleanStations [⟨"A", RawCell.num 1, RawCell.num 2⟩, ⟨"B", RawCell.str "n.d", RawCell.num 3⟩] ∧
    [(⟨"A", some 1, some 2⟩ : StationRow)] ≠ [] :=
  (cleanStations_coords_present required_cols
      [⟨"A", RawCell.num 1, RawCell.num 2⟩, ⟨"B", RawCell.str "n.d", RawCell.num 3⟩]).2.1
    [⟨"A", some 1, some 2⟩] (by decide)

end Visor
